import Mathlib

/-!
Verification of the NeoPixel ring animation engine
(`wyoming_satellite/neopixel_ring.py` and the example library
`examples-jlc/wyoming_neopixel_lib.py`).

Python integers are modelled as `ℤ`; Python float arithmetic appearing in the
frame generators is modelled by exact rational arithmetic on `ℚ`, with
`int(...)` truncation modelled as truncation toward zero; where a claim is
sensitive to rounding, IEEE-754 binary64 round-to-nearest-even arithmetic is
modelled explicitly (`roundDoubleFrac`).  For a positive divisor, Python's
floor-division `//` and `>>` agree with `Int.ediv`, and Python `%` and
`& (2^k - 1)` agree with `Int.emod`.
-/

namespace NeoPixelRingModel

/-- RGB colour triple `(r, g, b)`; mirrors the `RGBColor` type alias. -/
abbrev RGBColor := ℤ × ℤ × ℤ

/-- A full pixel-buffer snapshot, as produced by the frame generators. -/
abbrev Frame := List RGBColor

/-- Model of the `Palette` dataclass: the two colours used by the effects. -/
structure Palette where
  primary : RGBColor
  secondary : RGBColor
deriving DecidableEq

/-- Model of `_int_to_rgb`: convert an integer `0xRRGGBB` colour into an
`(r, g, b)` tuple via `(value >> 16) & 0xFF`, `(value >> 8) & 0xFF`,
`value & 0xFF`. -/
def intToRgb (value : ℤ) : RGBColor :=
  ((value / 65536) % 256, (value / 256) % 256, value % 256)

/-- The colour specifications a caller can pass to `_ensure_rgb`: a Python
int, a sequence of ints (modelled by its list of items), or any other value
(neither an int nor a sequence). -/
inductive ColorSpec where
  | intSpec (value : ℤ)
  | seqSpec (items : List ℤ)
  | otherSpec
deriving DecidableEq

/-- The exception kinds `_ensure_rgb` can raise. -/
inductive PyError where
  | valueError
  | typeError
deriving DecidableEq

/-- Model of `_ensure_rgb`: a sequence must contain exactly three items,
which are passed through unmodified; an int goes through `_int_to_rgb`;
anything else raises `TypeError`. -/
def ensureRgb : ColorSpec → Except PyError RGBColor
  | .seqSpec items =>
      if h : items.length = 3 then
        .ok (items.get ⟨0, by omega⟩, items.get ⟨1, by omega⟩, items.get ⟨2, by omega⟩)
      else
        .error .valueError
  | .intSpec value => .ok (intToRgb value)
  | .otherSpec => .error .typeError

instance exceptDecEq {ε α : Type} [DecidableEq ε] [DecidableEq α] :
    DecidableEq (Except ε α) := fun
  | .ok a, .ok b =>
      if h : a = b then .isTrue (h ▸ rfl) else .isFalse fun hh => h (Except.ok.inj hh)
  | .ok _, .error _ => .isFalse fun hh => Except.noConfusion hh
  | .error _, .ok _ => .isFalse fun hh => Except.noConfusion hh
  | .error e, .error f =>
      if h : e = f then .isTrue (h ▸ rfl) else .isFalse fun hh => h (Except.error.inj hh)

/-- Each channel of a colour lies in the 8-bit range `[0, 255]`. -/
def rgbInRange (c : RGBColor) : Prop :=
  (0 ≤ c.1 ∧ c.1 ≤ 255) ∧ (0 ≤ c.2.1 ∧ c.2.1 ≤ 255) ∧ (0 ≤ c.2.2 ∧ c.2.2 ≤ 255)

instance (c : RGBColor) : Decidable (rgbInRange c) := by
  unfold rgbInRange; infer_instance

/-- Model of Python `int(...)` applied to a rational value: truncation toward
zero (`Int.div` is T-division). -/
def pyTrunc (q : ℚ) : ℤ := Int.tdiv q.num (q.den : ℤ)

/-- Model of `_scale_color`: multiply each channel by a factor and truncate
with `int(...)`. -/
def scaleColor (color : RGBColor) (factor : ℚ) : RGBColor :=
  (pyTrunc ((color.1 : ℚ) * factor),
   pyTrunc ((color.2.1 : ℚ) * factor),
   pyTrunc ((color.2.2 : ℚ) * factor))

/-- Model of `_wakeup_frame`, with `progress = step % (pixel_count * 2)` and
`lit = min(progress, pixel_count)` inlined: pixels `[0, lit)` show the
palette's primary colour read at call time, the rest are off. -/
def wakeupFrame (palette : Palette) (pixelCount : ℕ) (step : ℕ) : Frame :=
  (List.range pixelCount).map fun index =>
    if index < min (step % (pixelCount * 2)) pixelCount then palette.primary else (0, 0, 0)

/-- Model of `_think_frame`: a rotating fade of the secondary colour; the
`(index - offset) % pixel_count` distance is computed on ints, the fade on
floats (modelled by `ℚ`). -/
def thinkFrame (palette : Palette) (pixelCount : ℕ) (step : ℕ) : Frame :=
  (List.range pixelCount).map fun index =>
    scaleColor palette.secondary
      (max 0 (1 - ((Int.emod ((index : ℤ) - ((step % pixelCount : ℕ) : ℤ)) (pixelCount : ℤ) : ℚ)
          / ((pixelCount : ℚ) / 2))) * (1 / 2))

/-- Model of `_spin_frame`, with `position = step % pixel_count` inlined: one
pixel shows the primary colour, the others are off. -/
def spinFrame (palette : Palette) (pixelCount : ℕ) (step : ℕ) : Frame :=
  (List.range pixelCount).map fun index =>
    if index = step % pixelCount then palette.primary else (0, 0, 0)

/-- The brightness level computed by `_pulse_frame` for a step: `cycle = 40`,
`phase = step % cycle`, rising `phase / (cycle / 2)` in the first half and
falling `1 - (phase - cycle / 2) / (cycle / 2)` in the second.  This is the
exact-rational idealisation of the float computation (adequate for the
integer-truncated frame colours); the rounding-faithful binary64 version of
the level is `pulseLevelFloat` below. -/
def pulseLevel (step : ℕ) : ℚ :=
  if ((step % 40 : ℕ) : ℚ) < 40 / 2 then ((step % 40 : ℕ) : ℚ) / (40 / 2)
  else 1 - ((((step % 40 : ℕ) : ℚ) - 40 / 2) / (40 / 2))

/-- Model of `_pulse_frame`: the whole ring shows the captured colour scaled
by the triangular-wave level. -/
def pulseFrame (pixelCount : ℕ) (step : ℕ) (color : RGBColor) : Frame :=
  List.replicate pixelCount (scaleColor color (pulseLevel step))

/-- Floor base-2 logarithm of the positive fraction `num / den`: the integer
e with `2 ^ e ≤ num / den < 2 ^ (e + 1)`, computed by doubling the smaller
side.  Fuel-bounded structural recursion keeps it evaluable inside proofs;
fuel 1100 covers the whole binary64 exponent range. -/
def fracLog2 : ℕ → ℤ → ℤ → ℤ
  | 0, _, _ => 0
  | fuel + 1, num, den =>
      if num < den then fracLog2 fuel (2 * num) den - 1
      else if 2 * den ≤ num then fracLog2 fuel num (2 * den) + 1
      else 0

/-- Round the fraction `num / den` (with `den > 0`) to the nearest integer,
ties to even: `num / den` is the floor, and twice the remainder is compared
with the denominator to decide the direction. -/
def divRoundHalfEven (num den : ℤ) : ℤ :=
  if 2 * (num - num / den * den) < den then num / den
  else if den < 2 * (num - num / den * den) then num / den + 1
  else if num / den % 2 = 0 then num / den else num / den + 1

/-- Correctly rounded IEEE-754 binary64 (double) value of the nonnegative
fraction `num / den` (`den > 0`), returned as a mantissa/denominator pair of
integers: the result is scaled so that its 53-bit significand is an integer,
and the scaled significand is rounded to nearest with ties to even.  Valid in
the normal range (no overflow or subnormals, which the pulse-level magnitudes
never reach). -/
def roundDoubleFrac (num den : ℤ) : ℤ × ℤ :=
  if num = 0 then (0, 1)
  else
    if fracLog2 1100 num den ≤ 52 then
      (divRoundHalfEven (num * 2 ^ (52 - fracLog2 1100 num den).toNat) den,
        2 ^ (52 - fracLog2 1100 num den).toNat)
    else
      (divRoundHalfEven num (den * 2 ^ (fracLog2 1100 num den - 52).toNat) *
        2 ^ (fracLog2 1100 num den - 52).toNat, 1)

/-- The level computation of `_pulse_frame` under IEEE-754 binary64 (double)
arithmetic, which is what CPython uses, as an exact fraction: the int-to-float
conversion of `phase ≤ 39`, the literal `cycle / 2 = 20.0` and the comparison
`phase < 20.0` are exact (so the branch tests the integers), while the
subtraction `phase - 20.0`, the division by `20.0` and the final subtraction
`1 - ...` are each one correctly rounded float operation (`roundDoubleFrac`);
a float subtraction of exact fractions rounds their exact difference, and a
float division rounds the exact quotient. -/
def pulseLevelFloatFrac (step : ℕ) : ℤ × ℤ :=
  if step % 40 < 20 then
    roundDoubleFrac ((step % 40 : ℕ) : ℤ) 20
  else
    (fun t2 => roundDoubleFrac (t2.2 - t2.1) t2.2)
      ((fun t1 => roundDoubleFrac t1.1 (20 * t1.2))
        (roundDoubleFrac (((step % 40 : ℕ) : ℤ) - 20) 1))

/-- The binary64 pulse level as a rational number. -/
def pulseLevelFloat (step : ℕ) : ℚ :=
  ((pulseLevelFloatFrac step).1 : ℚ) / ((pulseLevelFloatFrac step).2 : ℚ)

/-- The effects `_start_effect` can run.  `pulse` passes its validated colour
into the generator lambda, so that colour is part of the effect; the other
generators are bound methods reading `self._palette` when invoked. -/
inductive Effect where
  | wakeupE
  | thinkE
  | spinE
  | pulseE (rgb : RGBColor)
deriving DecidableEq

/-- The frame an active effect's generator produces at a step, given the
palette stored in the engine at that moment.  The wakeup/think/spin bound
methods read the live `self._palette`; the pulse lambda ignores it in favour
of its captured colour. -/
def generatorOf : Effect → Palette → ℕ → ℕ → Frame
  | .wakeupE, pal, n, s => wakeupFrame pal n s
  | .thinkE, pal, n, s => thinkFrame pal n s
  | .spinE, pal, n, s => spinFrame pal n s
  | .pulseE rgb, _, n, s => pulseFrame n s rgb

/-- The engine state of a `NeoPixelRing`: the pixel count, the hardware pixel
buffer, the palette, the active effect slot (`_effect_thread`), and the stop
event flag. -/
structure EngineState where
  pixelCount : ℕ
  buffer : List RGBColor
  palette : Palette
  effect : Option Effect
  stopSet : Bool
deriving DecidableEq

/-- The write loop of `_apply_colors`: slot `i` receives `colors[i]` when the
colour list covers it and `i < pixelCount` (the loop breaks there); other
slots keep their old value. -/
def writeFrom (colors : List RGBColor) (pixelCount : ℕ) : ℕ → List RGBColor → List RGBColor
  | _, [] => []
  | i, old :: rest =>
      (if i < pixelCount then colors.getD i old else old) ::
        writeFrom colors pixelCount (i + 1) rest

/-- Model of `_apply_colors`: write the colours into the buffer and flush. -/
def applyColors (st : EngineState) (colors : List RGBColor) : EngineState :=
  { st with buffer := writeFrom colors st.pixelCount 0 st.buffer }

/-- Model of `_fill`: apply `[color] * pixel_count`. -/
def fill (st : EngineState) (color : RGBColor) : EngineState :=
  applyColors st (List.replicate st.pixelCount color)

/-- Model of `_stop_effect`: return immediately when no effect thread exists;
otherwise set the stop event, join the thread, clear the slot and the event. -/
def stopEffect (st : EngineState) : EngineState :=
  match st.effect with
  | none => st
  | some _ => { st with effect := none, stopSet := false }

/-- Model of `_start_effect`: stop the previous effect, clear the stop event
and install the new effect's runner thread. -/
def startEffect (st : EngineState) (e : Effect) : EngineState :=
  { stopEffect st with effect := some e, stopSet := false }

/-- Model of `set_color_palette`: validate both colours (primary first, as
the `Palette(...)` arguments are evaluated left to right) and replace the
palette wholesale; on a validation fault the state is untouched. -/
def setColorPalette (st : EngineState) (primary secondary : ColorSpec) :
    EngineState × Except PyError Unit :=
  match ensureRgb primary with
  | .error e => (st, .error e)
  | .ok rp =>
      match ensureRgb secondary with
      | .error e => (st, .error e)
      | .ok rs => ({ st with palette := ⟨rp, rs⟩ }, .ok ())

/-- Model of `wakeup`: start the wakeup effect. -/
def wakeup (st : EngineState) : EngineState := startEffect st .wakeupE

/-- Model of `think`: start the think effect. -/
def think (st : EngineState) : EngineState := startEffect st .thinkE

/-- Model of `speak`: stop the current effect, then fill with the primary
palette colour. -/
def speak (st : EngineState) : EngineState :=
  fill (stopEffect st) (stopEffect st).palette.primary

/-- Model of `spin`: start the spin effect. -/
def spin (st : EngineState) : EngineState := startEffect st .spinE

/-- Model of `mono`: stop the current effect FIRST, then validate the colour
and fill; on a validation fault the error propagates but the stop has already
happened. -/
def mono (st : EngineState) (color : ColorSpec) : EngineState × Except PyError Unit :=
  match ensureRgb color with
  | .error e => (stopEffect st, .error e)
  | .ok rgb => (fill (stopEffect st) rgb, .ok ())

/-- Model of `pulse`: validate the colour first (`rgb = _ensure_rgb(color)`
precedes `_start_effect`), then start the pulse effect with the captured
colour; on a validation fault the state is untouched. -/
def pulse (st : EngineState) (color : ColorSpec) : EngineState × Except PyError Unit :=
  match ensureRgb color with
  | .error e => (st, .error e)
  | .ok rgb => (startEffect st (.pulseE rgb), .ok ())

/-- Model of `off`: stop the current effect and fill with `(0, 0, 0)`.  It is
a total function (it performs no validation, so it never raises). -/
def off (st : EngineState) : EngineState := fill (stopEffect st) (0, 0, 0)

/-- The frame that the running effect's generator would produce at a step,
computed from the engine state at that moment (the runner calls
`frame_generator(step)`, which reads the engine's current palette). -/
def liveFrame (st : EngineState) (step : ℕ) : Option Frame :=
  st.effect.map fun e => generatorOf e st.palette st.pixelCount step

/-- An all-off frame, `[(0, 0, 0)] * pixel_count`. -/
def zeroFrame (pixelCount : ℕ) : Frame := List.replicate pixelCount (0, 0, 0)

/-- Model of the `while` loop in the `runner` closure of `_start_effect`.
The stop event is an abstract boolean trace `stop`, read at observation point
`2 * step` by the `while not self._stop_event.is_set()` test and at
`2 * step + 1` by `self._stop_event.wait(interval)`; `durElapsed step` states
whether a set duration has elapsed by the end of step `step`.  The result is
the list of frames the loop applies, the observation point at which it exits,
and whether it exited because it observed the stop event; `none` means the
fuel ran out (the loop was still running). -/
def runnerLoop (gen : ℕ → Frame) (durElapsed stop : ℕ → Bool) :
    ℕ → ℕ → Option (List Frame × ℕ × Bool)
  | 0, _ => none
  | fuel + 1, step =>
      if stop (2 * step) then some ([], 2 * step, true)
      else
        if durElapsed step then some ([gen step], 2 * step + 1, false)
        else if stop (2 * step + 1) then some ([gen step], 2 * step + 1, true)
        else
          (runnerLoop gen durElapsed stop fuel (step + 1)).map
            fun r => (gen step :: r.1, r.2.1, r.2.2)

/-- Model of the whole `runner` closure: run the loop from step 0 and, when
the final `if not self._stop_event.is_set()` test passes, apply one last
all-zero frame.  Returns the applied frames and the cancellation flag. -/
def runnerRun (pixelCount : ℕ) (gen : ℕ → Frame) (durElapsed stop : ℕ → Bool)
    (fuel : ℕ) : Option (List Frame × Bool) :=
  (runnerLoop gen durElapsed stop fuel 0).map
    fun r => (if stop r.2.1 then r.1 else r.1 ++ [zeroFrame pixelCount], r.2.2)

/-- The shape of a `Thread.join` call: its timeout argument and whether a
warning is logged when the thread is still alive afterwards. -/
structure JoinCall where
  timeout : Option ℚ
  warnsIfAlive : Bool

/-- The join performed by `NeoPixelRing._stop_effect`: the source calls
`self._effect_thread.join()` with no timeout and logs nothing. -/
def stopEffectJoin : JoinCall := { timeout := none, warnsIfAlive := false }

/-- The join performed by the example library's
`WyomingNeoPixelLEDs._stop_current_animation`: `join(timeout=1.0)` followed by
a warning log when the thread is still alive. -/
def stopCurrentAnimationJoin : JoinCall := { timeout := some 1, warnsIfAlive := true }

/-- The palette installed by `__init__`: `0x0080FF` and `0x007A37`. -/
def initPalette : Palette := ⟨intToRgb 0x0080FF, intToRgb 0x007A37⟩

/-- A concrete 12-pixel engine state with a running spin effect. -/
def stRun : EngineState :=
  { pixelCount := 12
    buffer := List.replicate 12 (0, 0, 0)
    palette := initPalette
    effect := some .spinE
    stopSet := false }

/-- A concrete 12-pixel engine state with a running wakeup effect. -/
def stWake : EngineState :=
  { pixelCount := 12
    buffer := List.replicate 12 (0, 0, 0)
    palette := initPalette
    effect := some .wakeupE
    stopSet := false }

/-! ## Helper lemmas -/

theorem getD_map_range {α : Type} (f : ℕ → α) (n i : ℕ) (d : α) (h : i < n) :
    (((List.range n).map f).getD i d) = f i := by
  rw [List.getD_eq_getElem?_getD, List.getElem?_map, List.getElem?_range h]
  rfl

theorem countP_range_lt (k n : ℕ) :
    (List.range n).countP (fun i => decide (i < k)) = min k n := by
  induction n with
  | zero => simp
  | succ n ih =>
      rw [List.range_succ, List.countP_append, ih]
      rcases Nat.lt_or_ge n k with h | h
      · simp [List.countP_cons, h]; omega
      · simp [List.countP_cons, Nat.not_lt.mpr h]; omega

theorem countP_range_eq (k n : ℕ) :
    (List.range n).countP (fun i => decide (i = k)) = if k < n then 1 else 0 := by
  induction n with
  | zero => simp
  | succ n ih =>
      rw [List.range_succ, List.countP_append, ih]
      rcases Nat.lt_trichotomy n k with h | h | h
      · have h1 : ¬ k < n := by omega
        have h2 : ¬ k < n + 1 := by omega
        have h3 : n ≠ k := by omega
        simp [List.countP_cons, h1, h2, h3]
      · have h1 : ¬ k < n := by omega
        have h2 : k < n + 1 := by omega
        simp [List.countP_cons, h1, h2, h]
      · have h1 : k < n := by omega
        have h2 : k < n + 1 := by omega
        have h3 : n ≠ k := by omega
        simp [List.countP_cons, h1, h2, h3]

theorem stopEffect_effect (st : EngineState) : (stopEffect st).effect = none := by
  unfold stopEffect
  cases h : st.effect <;> simp [h]

theorem stopEffect_buffer (st : EngineState) : (stopEffect st).buffer = st.buffer := by
  unfold stopEffect
  cases h : st.effect <;> simp [h]

theorem stopEffect_pixelCount (st : EngineState) :
    (stopEffect st).pixelCount = st.pixelCount := by
  unfold stopEffect
  cases h : st.effect <;> simp [h]

theorem stopEffect_palette (st : EngineState) :
    (stopEffect st).palette = st.palette := by
  unfold stopEffect
  cases h : st.effect <;> simp [h]

theorem writeFrom_replicate (c : RGBColor) (n : ℕ) :
    ∀ (buf : List RGBColor) (i : ℕ), i + buf.length ≤ n →
      writeFrom (List.replicate n c) n i buf = List.replicate buf.length c := by
  intro buf
  induction buf with
  | nil => intro i _; rfl
  | cons old rest ih =>
      intro i hle
      have hi : i < n := by simp at hle; omega
      have hgd : (List.replicate n c).getD i old = c := by
        rw [List.getD_eq_getElem?_getD, List.getElem?_replicate, if_pos hi]
        rfl
      simp only [writeFrom, if_pos hi, hgd, List.length_cons, List.replicate_succ]
      rw [ih (i + 1) (by simp at hle ⊢; omega)]

theorem fill_buffer (st : EngineState) (c : RGBColor)
    (h : st.buffer.length = st.pixelCount) :
    (fill st c).buffer = List.replicate st.pixelCount c := by
  unfold fill applyColors
  simp only
  rw [writeFrom_replicate c st.pixelCount st.buffer 0 (by omega), h]

theorem fill_effect (st : EngineState) (c : RGBColor) :
    (fill st c).effect = st.effect := rfl

theorem fill_pixelCount (st : EngineState) (c : RGBColor) :
    (fill st c).pixelCount = st.pixelCount := rfl

theorem runnerLoop_spec (gen : ℕ → Frame) (dur stop : ℕ → Bool) :
    ∀ (fuel s : ℕ) (fs : List Frame) (t : ℕ) (c : Bool),
      runnerLoop gen dur stop fuel s = some (fs, t, c) →
      fs = (List.range' s fs.length).map gen ∧ (c = true → stop t = true) := by
  intro fuel
  induction fuel with
  | zero => intro s fs t c h; simp [runnerLoop] at h
  | succ fuel ih =>
      intro s fs t c h
      rw [runnerLoop] at h
      by_cases h0 : stop (2 * s) = true
      · rw [if_pos h0] at h
        obtain ⟨h1, h2, h3⟩ := by simpa using h
        subst h1; subst h2; subst h3
        exact ⟨by simp, fun _ => h0⟩
      · rw [if_neg h0] at h
        by_cases hd : dur s = true
        · rw [if_pos hd] at h
          obtain ⟨h1, h2, h3⟩ := by simpa using h
          subst h1; subst h2; subst h3
          refine ⟨?_, by simp⟩
          simp [List.range'_succ]
        · rw [if_neg hd] at h
          by_cases h1 : stop (2 * s + 1) = true
          · rw [if_pos h1] at h
            obtain ⟨ha, hb, hc⟩ := by simpa using h
            subst ha; subst hb; subst hc
            refine ⟨?_, fun _ => h1⟩
            simp [List.range'_succ]
          · rw [if_neg h1] at h
            cases hrec : runnerLoop gen dur stop fuel (s + 1) with
            | none => rw [hrec] at h; simp at h
            | some r =>
                rw [hrec] at h
                have h' : (gen s :: r.1, r.2.1, r.2.2) = (fs, t, c) := by
                  simpa using h
                have ha : fs = gen s :: r.1 := (congrArg Prod.fst h').symm
                have hb : t = r.2.1 := (congrArg (fun p => p.2.1) h').symm
                have hc : c = r.2.2 := (congrArg (fun p => p.2.2) h').symm
                obtain ⟨hfs, himp⟩ := ih (s + 1) r.1 r.2.1 r.2.2 (by rw [hrec])
                constructor
                · rw [ha]
                  simp only [List.length_cons, List.range'_succ, List.map_cons]
                  rw [← hfs]
                · intro hcc
                  rw [hb]
                  exact himp (by rw [← hc]; exact hcc)

/-! ## Claim theorems -/

/-- C3 counterexample: the claim that every accepted colour specification
yields channels in `[0, 255]` is false: the 3-tuple `(300, 0, 0)` is accepted
by `_ensure_rgb` and passed through with a channel of 300. -/
theorem c3_counterexample :
    ensureRgb (.seqSpec [300, 0, 0]) = .ok (300, 0, 0) ∧
      ¬ rgbInRange (300, 0, 0) := by
  constructor
  · rfl
  · decide

/-- C3 (amended): a colour constructed from a packed 24-bit integer has every
channel in `[0, 255]` (8-bit masks), while an explicit 3-tuple is passed
through unclamped, exactly as given. -/
theorem c3_amended (v a b c : ℤ) :
    rgbInRange (intToRgb v) ∧ ensureRgb (.seqSpec [a, b, c]) = .ok (a, b, c) := by
  constructor
  · unfold rgbInRange intToRgb
    refine ⟨⟨?_, ?_⟩, ⟨?_, ?_⟩, ?_, ?_⟩ <;> simp <;> omega
  · rfl

/-- C10: normalising any Python int as a colour extracts each channel with an
8-bit mask, so every channel lies in `[0, 255]` and all bits above bit 23 are
ignored: the result only depends on `v mod 2^24`. -/
theorem c10_int_normalisation (v : ℤ) :
    ensureRgb (.intSpec v) = .ok (intToRgb v) ∧
      rgbInRange (intToRgb v) ∧
      intToRgb v = intToRgb (v % 16777216) := by
  refine ⟨rfl, ?_, ?_⟩
  · unfold rgbInRange intToRgb
    refine ⟨⟨?_, ?_⟩, ⟨?_, ?_⟩, ?_, ?_⟩ <;> simp <;> omega
  · unfold intToRgb
    simp only [Prod.mk.injEq]
    refine ⟨?_, ?_, ?_⟩ <;> omega

/-- C4 counterexample: the claim that the join on the effect thread is
performed with a timeout, never unbounded, is false of
`NeoPixelRing._stop_effect`, whose join call carries no timeout. -/
theorem c4_counterexample : ¬ stopEffectJoin.timeout ≠ none := fun h => h rfl

/-- C4 (amended): `NeoPixelRing._stop_effect` joins the effect thread with NO
timeout and no warning, so the caller blocks until the loop observes
cancellation; the bounded join (timeout 1.0) with a warning on failure exists
only in the example library's `_stop_current_animation`. -/
theorem c4_amended :
    stopEffectJoin.timeout = none ∧ stopEffectJoin.warnsIfAlive = false ∧
      stopCurrentAnimationJoin.timeout = some 1 ∧
      stopCurrentAnimationJoin.warnsIfAlive = true :=
  ⟨rfl, rfl, rfl, rfl⟩

/-- C1 counterexample: the claim that frames produced after a
`set_color_palette` call by an effect started before it are unchanged is
false: with the wakeup effect running, the frame at step 1 after replacing
the palette differs from the frame the effect would have produced before. -/
theorem c1_counterexample :
    liveFrame (setColorPalette stWake (.intSpec 0xFF0000) (.intSpec 0)).1 1 ≠
      liveFrame stWake 1 := by decide

/-- C1 (amended): `set_color_palette` leaves the running effect installed,
but the frame generators read the engine's palette at every frame rather than
capturing it at effect start, so the frames the running effect produces after
the palette call are computed from the NEW palette — and differ from the old
ones whenever a lit pixel's colour changed (shown here for a running wakeup
effect with at least one lit pixel and a changed primary colour). -/
theorem c1_palette_change_affects_running_effect (st : EngineState)
    (p q : ColorSpec) (rp rq : RGBColor) (s : ℕ)
    (hp : ensureRgb p = .ok rp) (hq : ensureRgb q = .ok rq)
    (he : st.effect = some .wakeupE) (hn : 1 ≤ st.pixelCount)
    (hs : 1 ≤ s % (st.pixelCount * 2)) (hr : rp ≠ st.palette.primary) :
    (setColorPalette st p q).1.effect = st.effect ∧
      liveFrame (setColorPalette st p q).1 s =
        some (wakeupFrame ⟨rp, rq⟩ st.pixelCount s) ∧
      liveFrame (setColorPalette st p q).1 s ≠ liveFrame st s := by
  have hset : (setColorPalette st p q).1 = { st with palette := ⟨rp, rq⟩ } := by
    simp [setColorPalette, hp, hq]
  have hlit : 0 < min (s % (st.pixelCount * 2)) st.pixelCount := by omega
  have hkey : ∀ pal : Palette,
      (wakeupFrame pal st.pixelCount s).getD 0 (0, 0, 0) = pal.primary := by
    intro pal
    unfold wakeupFrame
    rw [getD_map_range _ _ _ _ hn, if_pos hlit]
  refine ⟨by rw [hset], by rw [hset]; simp [liveFrame, he, generatorOf], ?_⟩
  rw [hset]
  simp only [liveFrame, he, generatorOf, Option.map_some', ne_eq, Option.some.injEq]
  intro heq
  have h2 : rp = st.palette.primary := by
    have h3 := congrArg (fun l => l.getD 0 ((0 : ℤ), (0 : ℤ), (0 : ℤ))) heq
    simpa only [hkey ⟨rp, rq⟩, hkey st.palette] using h3
  exact hr h2

/-- C1 witness: the amended theorem applied to a concrete running wakeup
effect, a concrete palette replacement and step 2. -/
theorem c1_witness :
    (setColorPalette stWake (.intSpec 0xFF0000) (.intSpec 0)).1.effect = stWake.effect ∧
      liveFrame (setColorPalette stWake (.intSpec 0xFF0000) (.intSpec 0)).1 2 =
        some (wakeupFrame ⟨(255, 0, 0), (0, 0, 0)⟩ stWake.pixelCount 2) ∧
      liveFrame (setColorPalette stWake (.intSpec 0xFF0000) (.intSpec 0)).1 2 ≠
        liveFrame stWake 2 :=
  c1_palette_change_affects_running_effect stWake (.intSpec 0xFF0000) (.intSpec 0)
    (255, 0, 0) (0, 0, 0) 2 (by decide) (by decide) (by decide) (by decide)
    (by decide) (by decide)

/-- C2 counterexample: the claim that a failed call leaves the engine's
current effect unchanged is false for `mono`: it stops the running effect
BEFORE validating the colour, so an invalid colour raises `ValueError` while
the previously running spin effect is gone. -/
theorem c2_counterexample :
    (mono stRun (.seqSpec [1, 2])).2 = .error .valueError ∧
      (mono stRun (.seqSpec [1, 2])).1.effect ≠ stRun.effect := by decide

/-- C2 (amended): an invalid colour specification makes `set_color_palette`
(in either argument position), `pulse` and `mono` raise the validation fault
synchronously; `set_color_palette` and `pulse` leave the whole engine state
unchanged, but `mono` has already stopped the current effect when the fault
is raised, so after a failed `mono` no effect is running (the pixel buffer is
still untouched). -/
theorem c2_invalid_color_behaviour (st : EngineState) (c p : ColorSpec)
    (rp : RGBColor) (e : PyError)
    (hc : ensureRgb c = .error e) (hp : ensureRgb p = .ok rp) :
    ((setColorPalette st c p).1 = st ∧ (setColorPalette st c p).2 = .error e) ∧
      ((setColorPalette st p c).1 = st ∧ (setColorPalette st p c).2 = .error e) ∧
      ((pulse st c).1 = st ∧ (pulse st c).2 = .error e) ∧
      ((mono st c).2 = .error e ∧ (mono st c).1 = stopEffect st ∧
        (mono st c).1.effect = none ∧ (mono st c).1.buffer = st.buffer) := by
  refine ⟨⟨?_, ?_⟩, ⟨?_, ?_⟩, ⟨?_, ?_⟩, ?_, ?_, ?_, ?_⟩ <;>
    simp [setColorPalette, pulse, mono, hc, hp, stopEffect_effect, stopEffect_buffer]

/-- C2 witness: the amended theorem applied to a concrete running-spin state,
the invalid length-2 sequence and a valid packed-int colour. -/
theorem c2_witness :
    ((setColorPalette stRun (.seqSpec [1, 2]) (.intSpec 0)).1 = stRun ∧
        (setColorPalette stRun (.seqSpec [1, 2]) (.intSpec 0)).2 = .error .valueError) ∧
      ((setColorPalette stRun (.intSpec 0) (.seqSpec [1, 2])).1 = stRun ∧
        (setColorPalette stRun (.intSpec 0) (.seqSpec [1, 2])).2 = .error .valueError) ∧
      ((pulse stRun (.seqSpec [1, 2])).1 = stRun ∧
        (pulse stRun (.seqSpec [1, 2])).2 = .error .valueError) ∧
      ((mono stRun (.seqSpec [1, 2])).2 = .error .valueError ∧
        (mono stRun (.seqSpec [1, 2])).1 = stopEffect stRun ∧
        (mono stRun (.seqSpec [1, 2])).1.effect = none ∧
        (mono stRun (.seqSpec [1, 2])).1.buffer = stRun.buffer) :=
  c2_invalid_color_behaviour stRun (.seqSpec [1, 2]) (.intSpec 0) (0, 0, 0)
    .valueError (by decide) (by decide)

/-- C5: in a terminating run of the frame loop, if the run ends by
cancellation the applied frames are exactly the generator's frames for steps
`0, 1, ...` — no final all-zero frame is written after the stop signal is
observed; if the run ends because the duration elapsed and no cancellation
signal ever arrives, the applied frames are the generator's frames followed
by one final all-zero frame. -/
theorem c5_final_zero_frame (pixelCount fuel : ℕ) (gen : ℕ → Frame)
    (durElapsed stop : ℕ → Bool) (fs : List Frame) :
    (runnerRun pixelCount gen durElapsed stop fuel = some (fs, true) →
        fs = (List.range fs.length).map gen) ∧
      ((∀ t, stop t = false) →
        runnerRun pixelCount gen durElapsed stop fuel = some (fs, false) →
          1 ≤ fs.length ∧
            fs = (List.range (fs.length - 1)).map gen ++ [zeroFrame pixelCount]) := by
  constructor
  · intro h
    unfold runnerRun at h
    cases hl : runnerLoop gen durElapsed stop fuel 0 with
    | none => rw [hl] at h; simp at h
    | some r =>
        rw [hl] at h
        simp only [Option.map_some'] at h
        obtain ⟨hfs, himp⟩ :=
          runnerLoop_spec gen durElapsed stop fuel 0 r.1 r.2.1 r.2.2 (by rw [hl])
        have h' : (if stop r.2.1 then r.1 else r.1 ++ [zeroFrame pixelCount],
            r.2.2) = (fs, true) := by simpa using h
        have hc : r.2.2 = true := congrArg Prod.snd h'
        have hstop : stop r.2.1 = true := himp hc
        rw [if_pos hstop] at h'
        have hf : r.1 = fs := congrArg Prod.fst h'
        rw [← hf, List.range_eq_range']
        exact hfs
  · intro hnostop h
    unfold runnerRun at h
    cases hl : runnerLoop gen durElapsed stop fuel 0 with
    | none => rw [hl] at h; simp at h
    | some r =>
        rw [hl] at h
        simp only [Option.map_some'] at h
        obtain ⟨hfs, _⟩ :=
          runnerLoop_spec gen durElapsed stop fuel 0 r.1 r.2.1 r.2.2 (by rw [hl])
        have h' : (if stop r.2.1 then r.1 else r.1 ++ [zeroFrame pixelCount],
            r.2.2) = (fs, false) := by simpa using h
        rw [if_neg (by simp [hnostop r.2.1])] at h'
        have hf : r.1 ++ [zeroFrame pixelCount] = fs := congrArg Prod.fst h'
        constructor
        · rw [← hf]
          simp
        · rw [← hf]
          have hlen : (r.1 ++ [zeroFrame pixelCount]).length - 1 = r.1.length := by
            simp
          rw [hlen, List.range_eq_range', ← hfs]

/-- C5 witness: a concrete one-step run whose duration elapses at step 0 with
the stop trace constantly false: the applied frames are the generator frame
for step 0 followed by the final zero frame. -/
theorem c5_witness :
    1 ≤ [[((1 : ℤ), (0 : ℤ), (0 : ℤ))], zeroFrame 1].length ∧
      [[((1 : ℤ), (0 : ℤ), (0 : ℤ))], zeroFrame 1] =
        (List.range ([[((1 : ℤ), (0 : ℤ), (0 : ℤ))], zeroFrame 1].length - 1)).map
            (fun _ => [((1 : ℤ), (0 : ℤ), (0 : ℤ))]) ++ [zeroFrame 1] :=
  (c5_final_zero_frame 1 1 (fun _ => [(1, 0, 0)]) (fun _ => true) (fun _ => false)
      [[(1, 0, 0)], zeroFrame 1]).2 (fun _ => rfl) (by decide)

/-- C6: for every pixel count at least 1 and every step, the wakeup frame has
length `pixel_count`, exactly `min(step % (pixel_count * 2), pixel_count)`
non-off pixels, all equal to the primary palette colour (assumed itself not
the off colour), occupying the lowest indices; every remaining pixel is
`(0, 0, 0)`. -/
theorem c6_wakeup_frame_shape (pixelCount s : ℕ) (pal : Palette)
    (hn : 1 ≤ pixelCount) (hp : pal.primary ≠ (0, 0, 0)) :
    (wakeupFrame pal pixelCount s).length = pixelCount ∧
      (wakeupFrame pal pixelCount s).countP (fun c => decide (c ≠ (0, 0, 0))) =
        min (s % (pixelCount * 2)) pixelCount ∧
      (∀ i, i < min (s % (pixelCount * 2)) pixelCount →
        (wakeupFrame pal pixelCount s).getD i (0, 0, 0) = pal.primary) ∧
      (∀ i, min (s % (pixelCount * 2)) pixelCount ≤ i → i < pixelCount →
        (wakeupFrame pal pixelCount s).getD i (0, 0, 0) = (0, 0, 0)) := by
  refine ⟨by simp [wakeupFrame], ?_, ?_, ?_⟩
  · unfold wakeupFrame
    rw [List.countP_map]
    have hfun : ((fun c => decide (c ≠ ((0 : ℤ), (0 : ℤ), (0 : ℤ)))) ∘
          fun index =>
            if index < min (s % (pixelCount * 2)) pixelCount then pal.primary
            else (0, 0, 0)) =
        fun i => decide (i < min (s % (pixelCount * 2)) pixelCount) := by
      funext i
      simp only [Function.comp_apply, ne_eq, decide_eq_decide]
      by_cases hi : i < min (s % (pixelCount * 2)) pixelCount
      · rw [if_pos hi]
        exact iff_of_true hp hi
      · rw [if_neg hi]
        exact iff_of_false (not_not_intro rfl) hi
    rw [hfun, countP_range_lt]
    omega
  · intro i hi
    unfold wakeupFrame
    rw [getD_map_range _ _ _ _ (by omega), if_pos hi]
  · intro i hge hilt
    unfold wakeupFrame
    rw [getD_map_range _ _ _ _ hilt, if_neg (by omega)]

/-- C6 witness: the wakeup frame shape theorem applied to a 12-pixel ring at
step 5 with the initial palette. -/
theorem c6_witness :
    (wakeupFrame initPalette 12 5).length = 12 ∧
      (wakeupFrame initPalette 12 5).countP (fun c => decide (c ≠ (0, 0, 0))) =
        min (5 % (12 * 2)) 12 ∧
      (∀ i, i < min (5 % (12 * 2)) 12 →
        (wakeupFrame initPalette 12 5).getD i (0, 0, 0) = initPalette.primary) ∧
      (∀ i, min (5 % (12 * 2)) 12 ≤ i → i < 12 →
        (wakeupFrame initPalette 12 5).getD i (0, 0, 0) = (0, 0, 0)) :=
  c6_wakeup_frame_shape 12 5 initPalette (by decide) (by decide)

/-- C7: for every pixel count at least 1 and every step, the spin frame has
length `pixel_count` and exactly one non-off pixel, located at index
`step % pixel_count` and equal to the primary palette colour (assumed itself
not the off colour); every other pixel is `(0, 0, 0)`. -/
theorem c7_spin_frame_shape (pixelCount s : ℕ) (pal : Palette)
    (hn : 1 ≤ pixelCount) (hp : pal.primary ≠ (0, 0, 0)) :
    (spinFrame pal pixelCount s).length = pixelCount ∧
      (spinFrame pal pixelCount s).countP (fun c => decide (c ≠ (0, 0, 0))) = 1 ∧
      (spinFrame pal pixelCount s).getD (s % pixelCount) (0, 0, 0) = pal.primary ∧
      (∀ i, i < pixelCount → i ≠ s % pixelCount →
        (spinFrame pal pixelCount s).getD i (0, 0, 0) = (0, 0, 0)) := by
  have hpos : s % pixelCount < pixelCount := Nat.mod_lt s (by omega)
  refine ⟨by simp [spinFrame], ?_, ?_, ?_⟩
  · unfold spinFrame
    rw [List.countP_map]
    have hfun : ((fun c => decide (c ≠ ((0 : ℤ), (0 : ℤ), (0 : ℤ)))) ∘
          fun index => if index = s % pixelCount then pal.primary else (0, 0, 0)) =
        fun i => decide (i = s % pixelCount) := by
      funext i
      simp only [Function.comp_apply, ne_eq, decide_eq_decide]
      by_cases hi : i = s % pixelCount
      · rw [if_pos hi]
        exact iff_of_true hp hi
      · rw [if_neg hi]
        exact iff_of_false (not_not_intro rfl) hi
    rw [hfun, countP_range_eq, if_pos hpos]
  · unfold spinFrame
    rw [getD_map_range _ _ _ _ hpos, if_pos rfl]
  · intro i hilt hine
    unfold spinFrame
    rw [getD_map_range _ _ _ _ hilt, if_neg hine]

/-- C7 witness: the spin frame shape theorem applied to a 12-pixel ring at
step 14 with the initial palette. -/
theorem c7_witness :
    (spinFrame initPalette 12 14).length = 12 ∧
      (spinFrame initPalette 12 14).countP (fun c => decide (c ≠ (0, 0, 0))) = 1 ∧
      (spinFrame initPalette 12 14).getD (14 % 12) (0, 0, 0) = initPalette.primary ∧
      (∀ i, i < 12 → i ≠ 14 % 12 →
        (spinFrame initPalette 12 14).getD i (0, 0, 0) = (0, 0, 0)) :=
  c7_spin_frame_shape 12 14 initPalette (by decide) (by decide)

/-- C8 counterexample: the claimed within-cycle symmetry is false of the
program's double arithmetic: at phase 1, `1 / 20.0` is the double
`7205759403792794 * 2 ^ (-57)` while `1 - (19.0 / 20.0)` is the double
`7205759403792800 * 2 ^ (-57)`, so `level(1) ≠ level(40 - 1)`. -/
theorem c8_counterexample : pulseLevelFloat 1 ≠ pulseLevelFloat 39 := by
  have h1 : pulseLevelFloatFrac 1 = (7205759403792794, 144115188075855872) := by
    decide
  have h39 : pulseLevelFloatFrac 39 = (7205759403792800, 144115188075855872) := by
    decide
  unfold pulseLevelFloat
  rw [h1, h39]
  norm_num

/-- C8 (amended): under the program's binary64 double arithmetic the pulse
level is periodic with period 40 in the step counter and has the exact
boundary values `level(0) = 0` and `level(20) = 1`; the within-cycle symmetry
`level(phase) = level(40 - phase)` for phase in `[1, 19]` holds for the
triangular-wave formula in exact arithmetic (`pulseLevel`), but in double
arithmetic it can fail by one unit in the last place, as at phase 1. -/
theorem c8_pulse_level_amended (s phase : ℕ)
    (h1 : 1 ≤ phase) (h19 : phase ≤ 19) :
    pulseLevelFloat (s + 40) = pulseLevelFloat s ∧
      pulseLevelFloat 0 = 0 ∧ pulseLevelFloat 20 = 1 ∧
      pulseLevel phase = pulseLevel (40 - phase) := by
  refine ⟨?_, ?_, ?_, ?_⟩
  · unfold pulseLevelFloat pulseLevelFloatFrac
    rw [Nat.add_mod_right]
  · have h0 : pulseLevelFloatFrac 0 = (0, 1) := by decide
    unfold pulseLevelFloat
    rw [h0]
    norm_num
  · have h20 : pulseLevelFloatFrac 20 = (4503599627370496, 4503599627370496) := by
      decide
    unfold pulseLevelFloat
    rw [h20]
    norm_num
  · unfold pulseLevel
    have hm1 : phase % 40 = phase := Nat.mod_eq_of_lt (by omega)
    have hm2 : (40 - phase) % 40 = 40 - phase := Nat.mod_eq_of_lt (by omega)
    rw [hm1, hm2]
    have hq1 : (1 : ℚ) ≤ (phase : ℚ) := by exact_mod_cast h1
    have hq19 : (phase : ℚ) ≤ 19 := by exact_mod_cast h19
    have hcast : (((40 - phase : ℕ)) : ℚ) = 40 - (phase : ℚ) := by
      have hle : phase ≤ 40 := by omega
      push_cast [hle]
      ring
    have hc1 : (phase : ℚ) < 40 / 2 := by linarith
    have hc2 : ¬ (((40 - phase : ℕ)) : ℚ) < 40 / 2 := by
      rw [hcast]
      linarith
    rw [if_pos hc1, if_neg hc2, hcast]
    field_simp
    ring

/-- C8 witness: the amended pulse level theorem applied at step 3 and
phase 1. -/
theorem c8_witness :
    pulseLevelFloat (3 + 40) = pulseLevelFloat 3 ∧
      pulseLevelFloat 0 = 0 ∧ pulseLevelFloat 20 = 1 ∧
      pulseLevel 1 = pulseLevel (40 - 1) :=
  c8_pulse_level_amended 3 1 (by decide) (by decide)

theorem off_effect (st : EngineState) : (off st).effect = none := by
  unfold off
  rw [fill_effect, stopEffect_effect]

theorem off_pixelCount (st : EngineState) : (off st).pixelCount = st.pixelCount := by
  unfold off
  rw [fill_pixelCount, stopEffect_pixelCount]

theorem off_buffer (st : EngineState) (h : st.buffer.length = st.pixelCount) :
    (off st).buffer = List.replicate st.pixelCount (0, 0, 0) := by
  unfold off
  rw [fill_buffer _ _ (by rw [stopEffect_buffer, stopEffect_pixelCount]; exact h),
    stopEffect_pixelCount]

theorem stopEffect_of_off (st : EngineState) : stopEffect (off st) = off st := by
  unfold stopEffect
  rw [off_effect]

/-- C9: calling `off` twice in a row (a total function in the model: it
performs no validation, so it never raises) leaves the pixel buffer fully
zeroed after each of the two calls and the effect slot empty; the second
call's `_stop_effect` is the early-return no-op because no effect thread
exists any more. -/
theorem c9_off_twice (st : EngineState) (h : st.buffer.length = st.pixelCount) :
    (off st).buffer = List.replicate st.pixelCount (0, 0, 0) ∧
      (off st).effect = none ∧
      stopEffect (off st) = off st ∧
      (off (off st)).buffer = List.replicate st.pixelCount (0, 0, 0) ∧
      (off (off st)).effect = none := by
  have h1 := off_buffer st h
  have hlen2 : (off st).buffer.length = (off st).pixelCount := by
    rw [h1, off_pixelCount]
    simp
  have h2 := off_buffer (off st) hlen2
  rw [off_pixelCount] at h2
  exact ⟨h1, off_effect st, stopEffect_of_off st, h2, off_effect (off st)⟩

/-- C9 witness: the off-twice theorem applied to the concrete running-spin
state. -/
theorem c9_witness :
    (off stRun).buffer = List.replicate stRun.pixelCount (0, 0, 0) ∧
      (off stRun).effect = none ∧
      stopEffect (off stRun) = off stRun ∧
      (off (off stRun)).buffer = List.replicate stRun.pixelCount (0, 0, 0) ∧
      (off (off stRun)).effect = none :=
  c9_off_twice stRun (by decide)

end NeoPixelRingModel
